import Mathlib

/-!
Verification development for the event-dripper webhook client
(`eventdripper/signing.py` and its collaborators).

The Python source is shallowly embedded: byte strings are `List Nat`
(each element a byte value), machine-independent Python integers are
`Int`/`Nat`, the clock value returned by `time.time()` is an explicit
`Int` parameter `now`, and every function that can raise returns
`Except PyError`/`Option`.  Python standard-library routines that the
source calls (`hmac`, `hashlib.sha256`, `str.split`, `int`, `json.loads`,
`base64.b64decode`) are modelled faithfully to their documented CPython
behaviour; the repository's own `rfc3339.parse_datetime` module is not
part of the sources and is modelled from the specification.
-/

/-! ## Bytes, UTF-8 and hex encoding -/

/-- 2^32, the modulus for 32-bit words. -/
def M32 : Nat := 4294967296

/-- UTF-8 encoding of a single character (standard 1-4 byte encoding). -/
def utf8Char (c : Char) : List Nat :=
  let n := c.toNat
  if n < 0x80 then [n]
  else if n < 0x800 then [0xC0 ||| (n >>> 6), 0x80 ||| (n &&& 0x3F)]
  else if n < 0x10000 then
    [0xE0 ||| (n >>> 12), 0x80 ||| ((n >>> 6) &&& 0x3F), 0x80 ||| (n &&& 0x3F)]
  else
    [0xF0 ||| (n >>> 18), 0x80 ||| ((n >>> 12) &&& 0x3F),
     0x80 ||| ((n >>> 6) &&& 0x3F), 0x80 ||| (n &&& 0x3F)]

/-- Model of Python `s.encode("utf-8")`: the UTF-8 bytes of a string. -/
def utf8 (s : String) : List Nat := s.data.flatMap utf8Char

/-- Lowercase hex digit for a value below 16. -/
def hexChar (n : Nat) : Char := if n < 10 then Char.ofNat (48 + n) else Char.ofNat (87 + n)

/-- Lowercase hexadecimal encoding of a byte list (Python `hexdigest`). -/
def hexEncode (bs : List Nat) : String :=
  String.mk (bs.flatMap (fun b => [hexChar (b / 16), hexChar (b % 16)]))

/-! ## SHA-256 (model of `hashlib.sha256`) -/

/-- Rotate a 32-bit word right by `n` bit positions. -/
def rotr (n x : Nat) : Nat := ((x >>> n) ||| (x <<< (32 - n))) % M32

/-- The 64 SHA-256 round constants. -/
def shaK : List Nat := [
  1116352408, 1899447441, 3049323471, 3921009573, 961987163, 1508970993,
  2453635748, 2870763221, 3624381080, 310598401, 607225278, 1426881987,
  1925078388, 2162078206, 2614888103, 3248222580, 3835390401, 4022224774,
  264347078, 604807628, 770255983, 1249150122, 1555081692, 1996064986,
  2554220882, 2821834349, 2952996808, 3210313671, 3336571891, 3584528711,
  113926993, 338241895, 666307205, 773529912, 1294757372, 1396182291,
  1695183700, 1986661051, 2177026350, 2456956037, 2730485921, 2820302411,
  3259730800, 3345764771, 3516065817, 3600352804, 4094571909, 275423344,
  430227734, 506948616, 659060556, 883997877, 958139571, 1322822218,
  1537002063, 1747873779, 1955562222, 2024104815, 2227730452, 2361852424,
  2428436474, 2756734187, 3204031479, 3329325298]

/-- The SHA-256 initial hash value. -/
def shaH0 : List Nat :=
  [1779033703, 3144134277, 1013904242, 2773480762,
   1359893119, 2600822924, 528734635, 1541459225]

/-- SHA-256 big sigma 0. -/
def bsig0 (x : Nat) : Nat := rotr 2 x ^^^ rotr 13 x ^^^ rotr 22 x

/-- SHA-256 big sigma 1. -/
def bsig1 (x : Nat) : Nat := rotr 6 x ^^^ rotr 11 x ^^^ rotr 25 x

/-- SHA-256 small sigma 0. -/
def ssig0 (x : Nat) : Nat := rotr 7 x ^^^ rotr 18 x ^^^ ((x >>> 3) % M32)

/-- SHA-256 small sigma 1. -/
def ssig1 (x : Nat) : Nat := rotr 17 x ^^^ rotr 19 x ^^^ ((x >>> 10) % M32)

/-- SHA-256 choice function. -/
def chB (x y z : Nat) : Nat := (x &&& y) ^^^ ((x ^^^ 4294967295) &&& z)

/-- SHA-256 majority function. -/
def majB (x y z : Nat) : Nat := (x &&& y) ^^^ (x &&& z) ^^^ (y &&& z)

/-- Extend the 16 message-schedule words of one block to 64. -/
def extendW (w : Array Nat) : Array Nat :=
  (List.range 48).foldl (fun w _ =>
    let n := w.size
    let v := (ssig1 (w.getD (n - 2) 0) + w.getD (n - 7) 0 +
              ssig0 (w.getD (n - 15) 0) + w.getD (n - 16) 0) % M32
    w.push v) w

/-- Working state of the SHA-256 compression function. -/
structure ShaState where
  a : Nat
  b : Nat
  c : Nat
  d : Nat
  e : Nat
  f : Nat
  g : Nat
  h : Nat

/-- One round of the SHA-256 compression function. -/
def roundStep (st : ShaState) (kw : Nat × Nat) : ShaState :=
  let t1 := (st.h + bsig1 st.e + chB st.e st.f st.g + kw.1 + kw.2) % M32
  let t2 := (bsig0 st.a + majB st.a st.b st.c) % M32
  ⟨(t1 + t2) % M32, st.a, st.b, st.c, (st.d + t1) % M32, st.e, st.f, st.g⟩

/-- Compress one 16-word block into the running hash value. -/
def compress (hs : List Nat) (block : List Nat) : List Nat :=
  let w := extendW (List.toArray block)
  let kw := shaK.zip w.toList
  match hs with
  | [h0, h1, h2, h3, h4, h5, h6, h7] =>
    let st := kw.foldl roundStep ⟨h0, h1, h2, h3, h4, h5, h6, h7⟩
    [(h0 + st.a) % M32, (h1 + st.b) % M32, (h2 + st.c) % M32, (h3 + st.d) % M32,
     (h4 + st.e) % M32, (h5 + st.f) % M32, (h6 + st.g) % M32, (h7 + st.h) % M32]
  | _ => hs

/-- Big-endian 8-byte encoding of a number. -/
def be64 (n : Nat) : List Nat :=
  [(n >>> 56) % 256, (n >>> 48) % 256, (n >>> 40) % 256, (n >>> 32) % 256,
   (n >>> 24) % 256, (n >>> 16) % 256, (n >>> 8) % 256, n % 256]

/-- SHA-256 message padding: 0x80, zeros, 64-bit big-endian bit length. -/
def sha256pad (msg : List Nat) : List Nat :=
  let L := msg.length
  msg ++ [0x80] ++ List.replicate ((64 - ((L + 9) % 64)) % 64) 0 ++ be64 (8 * L)

/-- Group bytes into big-endian 32-bit words. -/
def words4 : List Nat → List Nat
  | b0 :: b1 :: b2 :: b3 :: rest =>
    ((b0 <<< 24) ||| (b1 <<< 16) ||| (b2 <<< 8) ||| b3) :: words4 rest
  | _ => []

/-- Split a byte list into 64-byte chunks (fuel-indexed for structural recursion). -/
def chunks64 : Nat → List Nat → List (List Nat)
  | 0, _ => []
  | _, [] => []
  | fuel + 1, l => l.take 64 :: chunks64 fuel (l.drop 64)

/-- SHA-256 of a byte list, as a 32-byte list. -/
def sha256 (msg : List Nat) : List Nat :=
  let blocks := chunks64 (msg.length + 1) (sha256pad msg)
  let hs := blocks.foldl (fun hs b => compress hs (words4 b)) shaH0
  hs.flatMap (fun w => [(w >>> 24) % 256, (w >>> 16) % 256, (w >>> 8) % 256, w % 256])

/-! ## HMAC-SHA256 (model of `hmac.new(..., digestmod=sha256)`) -/

/-- HMAC-SHA256 with a 64-byte block size. -/
def hmacSha256 (key msg : List Nat) : List Nat :=
  let k0 := if 64 < key.length then sha256 key else key
  let k := k0 ++ List.replicate (64 - k0.length) 0
  let ipad := k.map (fun b => b ^^^ 0x36)
  let opad := k.map (fun b => b ^^^ 0x5c)
  sha256 (opad ++ sha256 (ipad ++ msg))

/-- Embedding of `signing._compute_signature`: HMAC-SHA256 of the signing
string `f'{timestamp}.{payload}'` (decimal timestamp, literal dot, raw
payload, UTF-8 encoded) keyed by the UTF-8-encoded secret, returned as the
lowercase hex digest. -/
def _compute_signature (secret : String) (timestamp : Int) (payload : String) : String :=
  hexEncode (hmacSha256 (utf8 secret) (utf8 (toString timestamp ++ "." ++ payload)))

/-! ## Constant-time comparison (model of `hmac.compare_digest`) -/

/-- Core loop of the comparator: walks the two byte lists in lockstep,
OR-ing the XOR of each byte pair into an accumulator, and counts the
number of byte comparisons performed.  Returns (accumulator, count). -/
def cmpLoop : List Nat → List Nat → Nat → Nat × Nat
  | x :: xs, y :: ys, acc =>
    let r := cmpLoop xs ys (acc ||| (x ^^^ y))
    (r.1, r.2 + 1)
  | _, _, acc => (acc, 0)

/-- Modelled from the spec: the constant-time comparator
`verify(expected_hex, candidate_hex) -> bool` used in step 4 of the
orchestrator (CPython's `hmac.compare_digest`, which is not part of this
repository's sources).  It performs a byte-for-byte equality comparison
without short-circuiting: when the lengths differ the loop still runs over
the full first argument (compared against itself, per CPython `_tscmp`),
so the number of byte comparisons never depends on the candidate's
content.  Returns the verdict and the number of byte comparisons made. -/
def tscmp (a b : List Nat) : Bool × Nat :=
  (decide (a.length = b.length) && (cmpLoop (if a.length = b.length then b else a) a 0).1 == 0,
   (cmpLoop (if a.length = b.length then b else a) a 0).2)

/-- Code points of a string; for the ASCII strings compared by the
protocol these coincide with the compared bytes. -/
def strBytes (s : String) : List Nat := s.data.map Char.toNat

/-- Modelled from the spec: string-level comparator used by the
orchestrator, `compare_digest(expected, candidate)`. -/
def compare_digest (a b : String) : Bool := (tscmp (strBytes a) (strBytes b)).1

/-! ## Python `int()` (model, used for the header timestamp) -/

/-- Whitespace stripped by Python `int(str)`. -/
def pyWs (c : Char) : Bool :=
  c = ' ' || c = '\t' || c = '\n' || c = '\r' || c = '\x0b' || c = '\x0c'

/-- Numeric value of a decimal digit character. -/
def digitVal (c : Char) : Nat := c.toNat - 48

/-- Remaining digits of a Python decimal literal: single underscores are
allowed between digits only. -/
def moreDigits : List Char → Nat → Option Nat
  | [], acc => some acc
  | '_' :: c :: rest, acc => if c.isDigit then moreDigits rest (10 * acc + digitVal c) else none
  | ['_'], _ => none
  | c :: rest, acc => if c.isDigit then moreDigits rest (10 * acc + digitVal c) else none

/-- One or more digits with optional single underscore separators. -/
def pyDigits : List Char → Option Nat
  | [] => none
  | c :: rest => if c.isDigit then moreDigits rest (digitVal c) else none

/-- Strip Python `int()` whitespace from both ends. -/
def stripPyWs (cs : List Char) : List Char :=
  ((cs.dropWhile pyWs).reverse.dropWhile pyWs).reverse

/-- Model of Python `int(value)` for base-10 string arguments: optional
surrounding whitespace, optional sign, digits with underscore separators. -/
def pythonInt (s : String) : Option Int :=
  match stripPyWs s.data with
  | '+' :: rest => (pyDigits rest).map (fun n => (n : Int))
  | '-' :: rest => (pyDigits rest).map (fun n => -(n : Int))
  | rest => (pyDigits rest).map (fun n => (n : Int))

/-! ## `str.split` on a single-character separator -/

/-- Accumulating worker for `splitOnChar`. -/
def splitAux (sep : Char) : List Char → List Char → List String
  | [], acc => [String.mk acc.reverse]
  | c :: rest, acc =>
    if c = sep then String.mk acc.reverse :: splitAux sep rest []
    else splitAux sep rest (c :: acc)

/-- Model of Python `s.split(sep)` for a one-character separator:
splits at every occurrence, keeping empty pieces. -/
def splitOnChar (sep : Char) (s : String) : List String := splitAux sep s.data []

/-! ## Errors and the signature header parser -/

/-- The exception kinds raised by the library
(`eventdripper/exceptions.py`); `invalidHeader` carries the reason
string passed to `InvalidHeaderError`. -/
inductive PyError where
  | invalidHeader (msg : String)
  | signatureExpired
  | invalidSignature
  | invalidPayloadFormat
deriving DecidableEq

/-- Embedding of `signing.SignedHeader` in its successfully-parsed form:
`_parse_header` only returns once the timestamp is set and at least one
signature was collected. -/
structure SignedHeader where
  timestamp : Int
  signatures : List String
deriving DecidableEq

/-- The signing version tag recognised by the parser (`SigningVersion = 'v1'`). -/
def SigningVersion : String := "v1"

/-- The module-level tolerance window (`SigningToleranceSeconds = 300`). -/
def SigningToleranceSeconds : Nat := 300

/-- The `for pair in pairs` loop body of `_parse_header`, threading the
mutable `signed_header` state (timestamp so far, signatures so far). -/
def parsePairs : List String → Option Int → List String → Except PyError (Option Int × List String)
  | [], t, sigs => .ok (t, sigs)
  | pair :: rest, t, sigs =>
    match splitOnChar '=' pair with
    | [key, value] =>
      if key = "t" then
        match pythonInt value with
        | some n => parsePairs rest (some n) sigs
        | none => .error (.invalidHeader "invalid timestamp format")
      else if key = SigningVersion then parsePairs rest t (sigs ++ [value])
      else parsePairs rest t sigs
    | _ => .error (.invalidHeader "invalid format")

/-- Embedding of `signing._parse_header`. -/
def _parse_header (header : String) : Except PyError SignedHeader :=
  if header.length = 0 then .error (.invalidHeader "empty header")
  else
    match parsePairs (splitOnChar ',' header) none [] with
    | .error e => .error e
    | .ok (t, sigs) =>
      if sigs.length = 0 ∨ t = none then .error (.invalidHeader "missing fields")
      else
        match t with
        | some ts => .ok ⟨ts, sigs⟩
        | none => .error (.invalidHeader "missing fields")

/-! ## JSON values and a model of `json.loads` -/

/-- Parsed JSON values.  Numbers keep their source lexeme: the payload
fields the builder consumes are strings and arrays, so numeric precision
is never observed. -/
inductive JsonValue where
  | null
  | bool (b : Bool)
  | num (lex : String)
  | str (s : String)
  | arr (items : List JsonValue)
  | obj (fields : List (String × JsonValue))

/-- JSON whitespace (the characters skipped by Python's decoder). -/
def jWs (c : Char) : Bool := c = ' ' || c = '\t' || c = '\n' || c = '\r'

/-- Skip JSON whitespace. -/
def skipJWs (cs : List Char) : List Char := cs.dropWhile jWs

/-- Hexadecimal digit value. -/
def hexVal (c : Char) : Option Nat :=
  if '0' ≤ c ∧ c ≤ '9' then some (c.toNat - 48)
  else if 'a' ≤ c ∧ c ≤ 'f' then some (c.toNat - 97 + 10)
  else if 'A' ≤ c ∧ c ≤ 'F' then some (c.toNat - 65 + 10)
  else none

/-- Lex a JSON string body (after the opening quote), handling the JSON
escapes and `\uXXXX` sequences with surrogate pairs.  Model restriction:
unpaired surrogate escapes are rejected (Lean characters are scalar
values); the claims never exercise them. -/
def lexStrAux : List Char → List Char → Option (String × List Char)
  | [], _ => none
  | '"' :: rest, acc => some (String.mk acc.reverse, rest)
  | '\\' :: '"' :: r, acc => lexStrAux r ('"' :: acc)
  | '\\' :: '\\' :: r, acc => lexStrAux r ('\\' :: acc)
  | '\\' :: '/' :: r, acc => lexStrAux r ('/' :: acc)
  | '\\' :: 'b' :: r, acc => lexStrAux r ('\x08' :: acc)
  | '\\' :: 'f' :: r, acc => lexStrAux r ('\x0c' :: acc)
  | '\\' :: 'n' :: r, acc => lexStrAux r ('\n' :: acc)
  | '\\' :: 'r' :: r, acc => lexStrAux r ('\r' :: acc)
  | '\\' :: 't' :: r, acc => lexStrAux r ('\t' :: acc)
  | '\\' :: 'u' :: h1 :: h2 :: h3 :: h4 :: r, acc =>
    match hexVal h1, hexVal h2, hexVal h3, hexVal h4 with
    | some a, some b, some c, some d =>
      let n := 4096 * a + 256 * b + 16 * c + d
      if n < 0xD800 ∨ 0xE000 ≤ n then lexStrAux r (Char.ofNat n :: acc)
      else if n < 0xDC00 then
        match r with
        | '\\' :: 'u' :: g1 :: g2 :: g3 :: g4 :: r2 =>
          match hexVal g1, hexVal g2, hexVal g3, hexVal g4 with
          | some e, some f, some g, some h =>
            let m := 4096 * e + 256 * f + 16 * g + h
            if 0xDC00 ≤ m ∧ m < 0xE000 then
              lexStrAux r2 (Char.ofNat (0x10000 + (n - 0xD800) * 1024 + (m - 0xDC00)) :: acc)
            else none
          | _, _, _, _ => none
        | _ => none
      else none
    | _, _, _, _ => none
  | '\\' :: _, _ => none
  | c :: rest, acc => if c.toNat < 0x20 then none else lexStrAux rest (c :: acc)

/-- Lex the optional exponent part of a JSON number. -/
def numExp (cs : List Char) : List Char × List Char :=
  match cs with
  | 'e' :: r =>
    (match r with
     | '+' :: r2 =>
       (match r2.takeWhile Char.isDigit with
        | [] => ([], cs)
        | ds => (['e', '+'] ++ ds, r2.drop ds.length))
     | '-' :: r2 =>
       (match r2.takeWhile Char.isDigit with
        | [] => ([], cs)
        | ds => (['e', '-'] ++ ds, r2.drop ds.length))
     | _ =>
       (match r.takeWhile Char.isDigit with
        | [] => ([], cs)
        | ds => ('e' :: ds, r.drop ds.length)))
  | 'E' :: r =>
    (match r with
     | '+' :: r2 =>
       (match r2.takeWhile Char.isDigit with
        | [] => ([], cs)
        | ds => (['E', '+'] ++ ds, r2.drop ds.length))
     | '-' :: r2 =>
       (match r2.takeWhile Char.isDigit with
        | [] => ([], cs)
        | ds => (['E', '-'] ++ ds, r2.drop ds.length))
     | _ =>
       (match r.takeWhile Char.isDigit with
        | [] => ([], cs)
        | ds => ('E' :: ds, r.drop ds.length)))
  | _ => ([], cs)

/-- Lex the optional fraction part of a JSON number. -/
def numFrac (cs : List Char) : List Char × List Char :=
  match cs with
  | '.' :: r =>
    (match r.takeWhile Char.isDigit with
     | [] => ([], cs)
     | ds => ('.' :: ds, r.drop ds.length))
  | _ => ([], cs)

/-- Assemble a JSON number lexeme after its integer part. -/
def lexNumTail (intPart : List Char) (cs : List Char) : Option (String × List Char) :=
  let fr := numFrac cs
  let ex := numExp fr.2
  some (String.mk (intPart ++ fr.1 ++ ex.1), ex.2)

/-- Lex a JSON number after an optional sign (no leading zeros). -/
def lexNumFrom (sgn : List Char) (cs : List Char) : Option (String × List Char) :=
  match cs with
  | '0' :: rest => lexNumTail (sgn ++ ['0']) rest
  | c :: rest =>
    if c.isDigit then
      let ds := rest.takeWhile Char.isDigit
      lexNumTail (sgn ++ [c] ++ ds) (rest.drop ds.length)
    else none
  | [] => none

/-- Lex a JSON number (maximal match of the strict JSON number grammar). -/
def lexNum (cs : List Char) : Option (String × List Char) :=
  match cs with
  | '-' :: r => lexNumFrom ['-'] r
  | r => lexNumFrom [] r

mutual

/-- Parse one JSON value (fuel-indexed recursive-descent parser modelling
`json.loads`, including the `NaN`/`Infinity` constants Python accepts). -/
def parseVal : Nat → List Char → Option (JsonValue × List Char)
  | 0, _ => none
  | fuel + 1, cs0 =>
    match skipJWs cs0 with
    | 'n' :: 'u' :: 'l' :: 'l' :: rest => some (.null, rest)
    | 't' :: 'r' :: 'u' :: 'e' :: rest => some (.bool true, rest)
    | 'f' :: 'a' :: 'l' :: 's' :: 'e' :: rest => some (.bool false, rest)
    | 'N' :: 'a' :: 'N' :: rest => some (.num "NaN", rest)
    | 'I' :: 'n' :: 'f' :: 'i' :: 'n' :: 'i' :: 't' :: 'y' :: rest => some (.num "Infinity", rest)
    | '-' :: 'I' :: 'n' :: 'f' :: 'i' :: 'n' :: 'i' :: 't' :: 'y' :: rest =>
      some (.num "-Infinity", rest)
    | '"' :: rest => (lexStrAux rest []).map (fun p => (.str p.1, p.2))
    | '[' :: rest => parseArr fuel rest
    | '{' :: rest => parseObj fuel rest
    | cs => (lexNum cs).map (fun p => (.num p.1, p.2))
termination_by structural fuel _ => fuel

/-- Parse the inside of a JSON array (after the opening bracket). -/
def parseArr : Nat → List Char → Option (JsonValue × List Char)
  | 0, _ => none
  | fuel + 1, cs =>
    match skipJWs cs with
    | ']' :: rest => some (.arr [], rest)
    | _ => parseArrItems fuel cs []
termination_by structural fuel _ => fuel

/-- Parse comma-separated array items. -/
def parseArrItems : Nat → List Char → List JsonValue → Option (JsonValue × List Char)
  | 0, _, _ => none
  | fuel + 1, cs, acc =>
    match parseVal fuel cs with
    | none => none
    | some (v, rest) =>
      match skipJWs rest with
      | ',' :: r2 => parseArrItems fuel r2 (acc ++ [v])
      | ']' :: r2 => some (.arr (acc ++ [v]), r2)
      | _ => none
termination_by structural fuel _ _ => fuel

/-- Parse the inside of a JSON object (after the opening brace). -/
def parseObj : Nat → List Char → Option (JsonValue × List Char)
  | 0, _ => none
  | fuel + 1, cs =>
    match skipJWs cs with
    | '}' :: rest => some (.obj [], rest)
    | _ => parseObjItems fuel cs []
termination_by structural fuel _ => fuel

/-- Parse comma-separated object members, keeping duplicates in source order. -/
def parseObjItems : Nat → List Char → List (String × JsonValue) → Option (JsonValue × List Char)
  | 0, _, _ => none
  | fuel + 1, cs, acc =>
    match skipJWs cs with
    | '"' :: rest =>
      match lexStrAux rest [] with
      | none => none
      | some (k, r1) =>
        match skipJWs r1 with
        | ':' :: r2 =>
          match parseVal fuel r2 with
          | none => none
          | some (v, r3) =>
            match skipJWs r3 with
            | ',' :: r4 => parseObjItems fuel r4 (acc ++ [(k, v)])
            | '}' :: r4 => some (.obj (acc ++ [(k, v)]), r4)
            | _ => none
        | _ => none
    | _ => none
termination_by structural fuel _ _ => fuel

end

/-- Model of `json.loads`: parse one value and require only trailing
whitespace after it.  The fuel bound exceeds the number of parser calls
possible on the input (each recursive call consumes input or fuel). -/
def jsonParse (s : String) : Option JsonValue :=
  match parseVal (4 * s.length + 8) s.data with
  | none => none
  | some (v, rest) => if (skipJWs rest).isEmpty then some v else none

/-! ## Python subscription and iteration on JSON values -/

/-- Model of Python `value[key]` for a string key on a `json.loads`
result: only dicts succeed, and a dict lookup sees the last duplicate
(later members of a JSON object overwrite earlier ones in the dict);
everything else raises (`KeyError`/`TypeError`), modelled as `none`. -/
def getItem (j : JsonValue) (key : String) : Option JsonValue :=
  match j with
  | .obj kvs => kvs.foldl (fun acc kv => if kv.1 = key then some kv.2 else acc) none
  | _ => none

/-- First-occurrence-ordered keys of an object, deduplicated — the
iteration order of the Python dict built from it. -/
def objKeys (kvs : List (String × JsonValue)) : List String :=
  kvs.foldl (fun acc kv => if acc.contains kv.1 then acc else acc ++ [kv.1]) []

/-- Model of Python `for x in value` on a `json.loads` result: lists
yield their items, strings their characters (as one-character strings),
dicts their keys; numbers, booleans and `None` raise `TypeError`. -/
def pyIter (j : JsonValue) : Option (List JsonValue) :=
  match j with
  | .arr items => some items
  | .str s => some (s.data.map (fun c => .str (String.mk [c])))
  | .obj kvs => some ((objKeys kvs).map .str)
  | _ => none

/-! ## Base64 (model of `base64.b64decode` in its default lenient mode) -/

/-- Value of a base64 alphabet character. -/
def b64val (c : Char) : Option Nat :=
  if 'A' ≤ c ∧ c ≤ 'Z' then some (c.toNat - 65)
  else if 'a' ≤ c ∧ c ≤ 'z' then some (c.toNat - 97 + 26)
  else if '0' ≤ c ∧ c ≤ '9' then some (c.toNat - 48 + 52)
  else if c = '+' then some 62
  else if c = '/' then some 63
  else none

/-- Model of CPython's lenient `binascii.a2b_base64` loop: non-alphabet
characters are skipped, a completed padding group ends the decode, and a
leftover partial group at the end is an error.  Arguments: input,
position in the current quad, pending bits, padding count, output
accumulator (reversed). -/
def a2bB64 : List Char → Nat → Nat → Nat → List Nat → Option (List Nat)
  | [], q, _, _, acc => if q = 0 then some acc.reverse else none
  | c :: rest, q, left, pads, acc =>
    if c = '=' then
      if 2 ≤ q then
        if 4 ≤ q + (pads + 1) then some acc.reverse
        else a2bB64 rest q left (pads + 1) acc
      else a2bB64 rest q left pads acc
    else
      match b64val c with
      | none => a2bB64 rest q left pads acc
      | some v =>
        match q with
        | 0 => a2bB64 rest 1 v 0 acc
        | 1 => a2bB64 rest 2 (v &&& 15) 0 (((left <<< 2) ||| (v >>> 4)) :: acc)
        | 2 => a2bB64 rest 3 (v &&& 3) 0 (((left <<< 4) ||| (v >>> 2)) :: acc)
        | _ => a2bB64 rest 0 0 0 (((left <<< 6) ||| v) :: acc)

/-- Model of `base64.b64decode` on a `str` argument: the string must be
ASCII, then the lenient decoder runs. -/
def b64decodeStr (s : String) : Option (List Nat) :=
  if s.data.all (fun c => c.toNat < 128) then a2bB64 s.data 0 0 0 [] else none

/-- `base64.b64decode` applied to an arbitrary JSON value: non-string
values raise `TypeError`, modelled as `none`. -/
def b64decodeValue (j : JsonValue) : Option (List Nat) :=
  match j with
  | .str s => b64decodeStr s
  | _ => none

/-! ## RFC 3339 timestamps -/

/-- An absolute point in time: seconds since the Unix epoch plus a
fractional second given by its decimal digits with trailing zeros
stripped (making the representation of an instant unique, so equality of
`Instant`s is equality of the instants they denote). -/
structure Instant where
  sec : Int
  frac : List Nat
deriving DecidableEq

/-- Leap year test (proleptic Gregorian calendar). -/
def isLeap (y : Int) : Bool := y % 4 = 0 && (y % 100 ≠ 0 || y % 400 = 0)

/-- Days in a month. -/
def daysInMonth (y : Int) (m : Nat) : Nat :=
  match m with
  | 1 => 31
  | 2 => if isLeap y then 29 else 28
  | 3 => 31
  | 4 => 30
  | 5 => 31
  | 6 => 30
  | 7 => 31
  | 8 => 31
  | 9 => 30
  | 10 => 31
  | 11 => 30
  | 12 => 31
  | _ => 0

/-- Days from the civil date `y-m-d` to the Unix epoch (standard
era-based algorithm). -/
def daysFromCivil (y : Int) (m d : Nat) : Int :=
  let yAdj : Int := if m ≤ 2 then y - 1 else y
  let era : Int := Int.fdiv yAdj 400
  let yoe : Int := yAdj - era * 400
  let mp : Nat := (m + 9) % 12
  let doy : Int := (153 * mp + 2) / 5 + (d : Int) - 1
  let doe : Int := yoe * 365 + Int.fdiv yoe 4 - Int.fdiv yoe 100 + doy
  era * 146097 + doe - 719468

/-- Two decimal digit characters as a number. -/
def twoDigits (a b : Char) : Option Nat :=
  if a.isDigit ∧ b.isDigit then some (10 * digitVal a + digitVal b) else none

/-- Parse the trailing offset of an RFC 3339 timestamp: `Z`/`z` or
`±hh:mm`.  Returns the offset in minutes; the whole input must be
consumed. -/
def parseOffset : List Char → Option Int
  | ['Z'] => some 0
  | ['z'] => some 0
  | ['+', h1, h2, ':', m1, m2] =>
    match twoDigits h1 h2, twoDigits m1 m2 with
    | some hh, some mm => if hh ≤ 23 ∧ mm ≤ 59 then some ((hh : Int) * 60 + mm) else none
    | _, _ => none
  | ['-', h1, h2, ':', m1, m2] =>
    match twoDigits h1 h2, twoDigits m1 m2 with
    | some hh, some mm => if hh ≤ 23 ∧ mm ≤ 59 then some (-((hh : Int) * 60 + mm)) else none
    | _, _ => none
  | _ => none

/-- Parse the optional fractional-second part followed by the offset.
Returns (fraction digits, offset minutes). -/
def parseFracOffset (cs : List Char) : Option (List Nat × Int) :=
  match cs with
  | '.' :: r =>
    (match r.takeWhile Char.isDigit with
     | [] => none
     | ds => (parseOffset (r.drop ds.length)).map
         (fun off => ((((ds.map digitVal).reverse.dropWhile (· = 0)).reverse), off)))
  | _ => (parseOffset cs).map (fun off => (([] : List Nat), off))

/-- Modelled from the spec: the repository's `rfc3339.parse_datetime`
module is imported by `signing.py` but its source is not among the
repository files.  Per the spec (§4.1) it parses a timestamp string in
RFC 3339 format — `YYYY-MM-DDThh:mm:ss` with optional fractional seconds
and `Z` or an explicit `±hh:mm` offset — into an absolute point in time
with sub-second precision preserved, and fails on malformed input. -/
def parseRfc3339 (s : String) : Option Instant :=
  match s.data with
  | y1 :: y2 :: y3 :: y4 :: '-' :: m1 :: m2 :: '-' :: d1 :: d2 :: t :: h1 :: h2 :: ':' ::
      mi1 :: mi2 :: ':' :: s1 :: s2 :: rest =>
    if (t = 'T' ∨ t = 't') ∧ y1.isDigit ∧ y2.isDigit ∧ y3.isDigit ∧ y4.isDigit then
      match twoDigits m1 m2, twoDigits d1 d2, twoDigits h1 h2, twoDigits mi1 mi2,
            twoDigits s1 s2 with
      | some mo, some dy, some hh, some mm, some ss =>
        let yr : Int :=
          (1000 * digitVal y1 + 100 * digitVal y2 + 10 * digitVal y3 + digitVal y4 : Nat)
        if 1 ≤ mo ∧ mo ≤ 12 ∧ 1 ≤ dy ∧ dy ≤ daysInMonth yr mo ∧ hh ≤ 23 ∧ mm ≤ 59 ∧ ss ≤ 60 then
          match parseFracOffset rest with
          | some (frac, off) =>
            some ⟨86400 * daysFromCivil yr mo dy + 3600 * hh + 60 * mm + ss - 60 * off, frac⟩
          | none => none
        else none
      | _, _, _, _, _ => none
    else none
  | _ => none

/-- `parse_datetime` applied to an arbitrary JSON value: the missing
`rfc3339` module (see `parseRfc3339`) expects a string argument; any
other value fails. -/
def parse_datetime (j : JsonValue) : Option Instant :=
  match j with
  | .str s => parseRfc3339 s
  | _ => none

/-! ## Notifications (model of `eventdripper/notification.py`) -/

/-- Embedding of `Event`.  The dataclass annotations of the source are
not enforced at runtime, so `name` holds whatever JSON value the payload
supplied; `data` is the decoded byte sequence and `at` the parsed
instant. -/
structure Event where
  at_ : Instant
  name : JsonValue
  data : List Nat

/-- Embedding of `Notification`; as with `Event`, `trigger_name` and
`entity_id` hold the payload's JSON values. -/
structure Notification where
  trigger_name : JsonValue
  entity_id : JsonValue
  events : List Event

/-- Build one `Event` from a JSON value, in the source's evaluation
order (`at`, then `name`, then `data`); any failure aborts.  The field
`at` of the source is `at_` here (`at` is reserved in Lean). -/
def buildEvent (e : JsonValue) : Option Event :=
  (getItem e "at").bind (fun a =>
    (parse_datetime a).bind (fun t =>
      (getItem e "name").bind (fun nm =>
        (getItem e "data").bind (fun d =>
          (b64decodeValue d).map (fun bytes => ⟨t, nm, bytes⟩)))))

/-- The `for event in notification_json['events']` loop: build each
event in order, aborting on the first failure. -/
def buildEvents : List JsonValue → Option (List Event)
  | [] => some []
  | e :: rest => (buildEvent e).bind (fun ev => (buildEvents rest).map (fun evs => ev :: evs))

/-- The body of the `try` block of `_build_notification`: parse the
payload, iterate `payload['events']` building the events, then read
`trigger_name` and `entity_id`.  `none` is any raised exception. -/
def buildNotificationCore (payload : String) : Option Notification :=
  (jsonParse payload).bind (fun j =>
    (getItem j "events").bind (fun evVal =>
      (pyIter evVal).bind (fun items =>
        (buildEvents items).bind (fun events =>
          (getItem j "trigger_name").bind (fun tn =>
            (getItem j "entity_id").map (fun ei => ⟨tn, ei, events⟩))))))

/-- Embedding of `signing._build_notification`: every exception raised
inside the `try` block is re-raised as `InvalidPayloadFormatError`. -/
def _build_notification (payload : String) : Except PyError Notification :=
  match buildNotificationCore payload with
  | some n => .ok n
  | none => .error .invalidPayloadFormat

/-! ## The verification orchestrator -/

/-- The `for got_signatures in signed_header.signatures` loop of
`construct_notification`: on the first comparator match the notification
is built and returned; if no candidate matches, `InvalidSignatureError`. -/
def verifyLoop (expected payload : String) : List String → Except PyError Notification
  | [] => .error .invalidSignature
  | got :: rest =>
    if compare_digest expected got then _build_notification payload
    else verifyLoop expected payload rest

/-- Embedding of `signing.construct_notification` with the module-level
tolerance configuration `SigningToleranceSeconds` and the clock reading
`time.time()` made explicit parameters (`tol`, `now`).  The tolerance
gate mirrors `if SigningToleranceSeconds and timestamp < time.time() -
SigningToleranceSeconds` — Python's truthiness test makes the window a
no-op when the configured tolerance is zero. -/
def construct_notificationWith (tol : Nat) (now : Int) (payload header secret : String) :
    Except PyError Notification :=
  match _parse_header header with
  | .error e => .error e
  | .ok sh =>
    if tol ≠ 0 ∧ sh.timestamp < now - (tol : Int) then .error .signatureExpired
    else verifyLoop (_compute_signature secret sh.timestamp payload) payload sh.signatures

/-- `construct_notification` as shipped: tolerance fixed at the module
default of 300 seconds. -/
def construct_notification (now : Int) (payload header secret : String) :
    Except PyError Notification :=
  construct_notificationWith SigningToleranceSeconds now payload header secret

/-! ## Claim theorems -/

set_option maxRecDepth 1000000

/-- C2: `compute_signature` builds the signing string
`"{timestamp}.{payload}"` (decimal timestamp, literal dot, raw payload,
UTF-8 encoded), computes HMAC-SHA256 keyed by the UTF-8-encoded secret,
and returns the lowercase hex digest; it reproduces both documented
reference vectors. -/
theorem compute_signature_spec :
    (∀ secret : String, ∀ timestamp : Int, ∀ payload : String,
      _compute_signature secret timestamp payload =
        hexEncode (hmacSha256 (utf8 secret) (utf8 (toString timestamp ++ "." ++ payload)))) ∧
    _compute_signature "secret" 421337 "payload" =
      "1ddcaadc64a25cc5053ece8965723309bb6d20ba72f8a1b78fc37a83ae027a29" ∧
    _compute_signature "top secret" 1602253775
        "wow this payload is larger. not very large, but larger!" =
      "8b3fbc3bab914fcb8afa437a9412336139b22a9dd8b5ef019ca28bc4597e4a94" :=
  ⟨fun _ _ _ => rfl, by decide, by decide⟩

/-- C10: the header timestamp parser inherits Python `int()` leniency —
headers whose `t` value carries surrounding whitespace, a leading plus
sign, or an underscore digit separator parse successfully to the
corresponding integer instead of failing with `InvalidHeader`. -/
theorem parse_header_lenient_int :
    _parse_header "t= 5,v1=x" = .ok ⟨5, ["x"]⟩ ∧
    _parse_header "t=+5,v1=x" = .ok ⟨5, ["x"]⟩ ∧
    _parse_header "t=1_0,v1=x" = .ok ⟨10, ["x"]⟩ :=
  ⟨rfl, rfl, rfl⟩

/-- C5 counterexample: the parser does not split on the first `=` only —
the element `v1=abc=def` is rejected with `InvalidHeader: invalid
format` rather than accepted with the value `abc=def`. -/
theorem parse_header_equals_in_value :
    _parse_header "t=1,v1=abc=def" = .error (.invalidHeader "invalid format") := rfl

/-! ### Comparator lemmas -/

theorem lor_eq_zero_iff (a b : Nat) : a ||| b = 0 ↔ a = 0 ∧ b = 0 := by
  constructor
  · intro h
    constructor
    · apply Nat.eq_of_testBit_eq
      intro i
      have h2 := congrArg (fun x => Nat.testBit x i) h
      simp only [Nat.testBit_lor, Nat.zero_testBit, Bool.or_eq_false_iff] at h2
      simp [h2.1, Nat.zero_testBit]
    · apply Nat.eq_of_testBit_eq
      intro i
      have h2 := congrArg (fun x => Nat.testBit x i) h
      simp only [Nat.testBit_lor, Nat.zero_testBit, Bool.or_eq_false_iff] at h2
      simp [h2.2, Nat.zero_testBit]
  · rintro ⟨rfl, rfl⟩
    rfl

theorem cmpLoop_acc_iff : ∀ (xs ys : List Nat) (acc : Nat), xs.length = ys.length →
    ((cmpLoop xs ys acc).1 = 0 ↔ acc = 0 ∧ xs = ys)
  | [], [], acc, _ => by simp [cmpLoop]
  | [], _ :: _, _, h => by simp at h
  | _ :: _, [], _, h => by simp at h
  | x :: xs, y :: ys, acc, h => by
    have hlen : xs.length = ys.length := by simpa using h
    have ih := cmpLoop_acc_iff xs ys (acc ||| (x ^^^ y)) hlen
    simp only [cmpLoop]
    rw [ih, lor_eq_zero_iff, Nat.xor_eq_zero]
    constructor
    · rintro ⟨⟨h1, h2⟩, h3⟩
      exact ⟨h1, by rw [h2, h3]⟩
    · rintro ⟨h1, h2⟩
      have h3 := List.cons.injEq x xs y ys ▸ h2
      simp at h3
      exact ⟨⟨h1, h3.1⟩, h3.2⟩

theorem cmpLoop_steps : ∀ (xs ys : List Nat) (acc : Nat),
    (cmpLoop xs ys acc).2 = min xs.length ys.length
  | [], [], _ => rfl
  | [], _ :: _, _ => rfl
  | _ :: _, [], _ => rfl
  | x :: xs, y :: ys, acc => by
    simp only [cmpLoop, List.length_cons]
    rw [cmpLoop_steps xs ys]
    omega

theorem tscmp_true_iff (a b : List Nat) : (tscmp a b).1 = true ↔ a = b := by
  unfold tscmp
  rw [Bool.and_eq_true, decide_eq_true_eq, beq_iff_eq]
  by_cases h : a.length = b.length
  · rw [if_pos h, cmpLoop_acc_iff b a 0 h.symm]
    constructor
    · rintro ⟨_, _, h2⟩
      exact h2.symm
    · intro h2
      exact ⟨h, rfl, h2.symm⟩
  · rw [if_neg h]
    constructor
    · rintro ⟨hl, _⟩
      exact absurd hl h
    · intro heq
      exact absurd (congrArg List.length heq) h

theorem tscmp_steps (a b : List Nat) : (tscmp a b).2 = a.length := by
  unfold tscmp
  by_cases h : a.length = b.length
  · rw [if_pos h]
    simp only [cmpLoop_steps]
    omega
  · rw [if_neg h]
    simp only [cmpLoop_steps]
    omega

theorem char_toNat_inj : Function.Injective Char.toNat := by
  intro c d h
  have h1 := Char.ofNat_toNat c
  have h2 := Char.ofNat_toNat d
  rw [← h1, ← h2, h]

theorem strBytes_inj (a b : String) (h : strBytes a = strBytes b) : a = b := by
  unfold strBytes at h
  have hd := List.map_injective_iff.mpr char_toNat_inj h
  cases a
  cases b
  exact congrArg String.mk hd

theorem compare_digest_true_iff (a b : String) : compare_digest a b = true ↔ a = b := by
  unfold compare_digest
  rw [tscmp_true_iff]
  constructor
  · exact strBytes_inj a b
  · intro h
    rw [h]

/-- C8: the signature comparator returns true exactly on byte-for-byte
equal inputs (rejecting different lengths or contents), and the number
of byte comparisons it performs is `a.length`, independent of the
candidate entirely — so it cannot short-circuit on length or on an early
byte difference. -/
theorem comparator_constant_time :
    (∀ a b : List Nat, (tscmp a b).1 = true ↔ a = b) ∧
    (∀ a b : List Nat, (tscmp a b).2 = a.length) ∧
    (∀ s t : String, compare_digest s t = true ↔ s = t) :=
  ⟨tscmp_true_iff, tscmp_steps, compare_digest_true_iff⟩

/-! ### Header parser lemmas -/

/-- The values of the `t` pairs of a list of `key=value` elements. -/
def tValsOf (ps : List String) : List String :=
  ps.filterMap (fun pair =>
    match splitOnChar '=' pair with
    | [k, v] => if k = "t" then some v else none
    | _ => none)

/-- The values of the `v1` pairs of a list of `key=value` elements. -/
def v1ValsOf (ps : List String) : List String :=
  ps.filterMap (fun pair =>
    match splitOnChar '=' pair with
    | [k, v] => if k = "v1" then some v else none
    | _ => none)

/-- The values of the `t` pairs of a header, in order. -/
def tValues (header : String) : List String := tValsOf (splitOnChar ',' header)

/-- The values of the `v1` pairs of a header, in order. -/
def v1Values (header : String) : List String := v1ValsOf (splitOnChar ',' header)

/-- The last element of a list, if any. -/
def lastVal : List String → Option String
  | [] => none
  | [v] => some v
  | _ :: rest => lastVal rest

theorem lastVal_cons (v : String) (l : List String) :
    lastVal (v :: l) = match lastVal l with | none => some v | some w => some w := by
  cases l with
  | nil => rfl
  | cons b bs =>
    show lastVal (b :: bs) = _
    cases h : lastVal (b :: bs) with
    | none =>
      exfalso
      induction bs generalizing b with
      | nil => simp [lastVal] at h
      | cons c cs ih => exact ih c (by simpa [lastVal] using h)
    | some w => rfl

theorem parsePairs_ok_props : ∀ (ps : List String) (t : Option Int) (sigs : List String)
    (t2 : Option Int) (sigs2 : List String),
    parsePairs ps t sigs = .ok (t2, sigs2) →
    sigs2 = sigs ++ v1ValsOf ps ∧
    (match lastVal (tValsOf ps) with
     | none => t2 = t
     | some v => t2 = pythonInt v) ∧
    (∀ pair ∈ ps, (splitOnChar '=' pair).length = 2)
  | [], t, sigs, t2, sigs2 => by
    intro h
    simp only [parsePairs] at h
    injection h with h
    injection h with h1 h2
    subst h1
    subst h2
    refine ⟨by simp [v1ValsOf], ?_, by simp⟩
    simp [tValsOf, lastVal]
  | pair :: rest, t, sigs, t2, sigs2 => by
    intro h
    simp only [parsePairs] at h
    rcases hsp : splitOnChar '=' pair with _ | ⟨k, _ | ⟨v, _ | ⟨w, ws⟩⟩⟩ <;> rw [hsp] at h
    · simp at h
    · simp at h
    · simp only at h
      by_cases hk : k = "t"
      · rw [if_pos hk] at h
        cases hpi : pythonInt v with
        | none => rw [hpi] at h; simp at h
        | some n =>
          rw [hpi] at h
          obtain ⟨ih1, ih2, ih3⟩ := parsePairs_ok_props rest (some n) sigs t2 sigs2 h
          have htv : tValsOf (pair :: rest) = v :: tValsOf rest := by
            simp [tValsOf, List.filterMap_cons, hsp, hk]
          have hv1 : v1ValsOf (pair :: rest) = v1ValsOf rest := by
            have : k ≠ "v1" := by rw [hk]; decide
            simp [v1ValsOf, List.filterMap_cons, hsp, this]
          refine ⟨by rw [hv1]; exact ih1, ?_, ?_⟩
          · rw [htv, lastVal_cons]
            cases htl : lastVal (tValsOf rest) with
            | none =>
              rw [htl] at ih2
              simp only
              rw [ih2, hpi]
            | some u =>
              rw [htl] at ih2
              simp only
              exact ih2
          · intro q hq
            rcases List.mem_cons.mp hq with rfl | hq2
            · rw [hsp]; rfl
            · exact ih3 q hq2
      · rw [if_neg hk] at h
        by_cases hk2 : k = SigningVersion
        · rw [if_pos hk2] at h
          obtain ⟨ih1, ih2, ih3⟩ := parsePairs_ok_props rest t (sigs ++ [v]) t2 sigs2 h
          have hkv : k = "v1" := hk2
          have htv : tValsOf (pair :: rest) = tValsOf rest := by
            simp [tValsOf, List.filterMap_cons, hsp, hk]
          have hv1 : v1ValsOf (pair :: rest) = v :: v1ValsOf rest := by
            simp [v1ValsOf, List.filterMap_cons, hsp, hkv]
          refine ⟨?_, ?_, ?_⟩
          · rw [hv1, ih1, List.append_assoc]
            rfl
          · rw [htv]
            exact ih2
          · intro q hq
            rcases List.mem_cons.mp hq with rfl | hq2
            · rw [hsp]; rfl
            · exact ih3 q hq2
        · rw [if_neg hk2] at h
          obtain ⟨ih1, ih2, ih3⟩ := parsePairs_ok_props rest t sigs t2 sigs2 h
          have hkv : k ≠ "v1" := hk2
          have htv : tValsOf (pair :: rest) = tValsOf rest := by
            simp [tValsOf, List.filterMap_cons, hsp, hk]
          have hv1 : v1ValsOf (pair :: rest) = v1ValsOf rest := by
            simp [v1ValsOf, List.filterMap_cons, hsp, hkv]
          refine ⟨by rw [hv1]; exact ih1, by rw [htv]; exact ih2, ?_⟩
          intro q hq
          rcases List.mem_cons.mp hq with rfl | hq2
          · rw [hsp]; rfl
          · exact ih3 q hq2
    · simp at h

theorem parse_header_ok_elim (header : String) (sh : SignedHeader)
    (h : _parse_header header = .ok sh) :
    parsePairs (splitOnChar ',' header) none [] = .ok (some sh.timestamp, sh.signatures) ∧
    sh.signatures ≠ [] := by
  unfold _parse_header at h
  by_cases hlen : header.length = 0
  · rw [if_pos hlen] at h
    simp at h
  · rw [if_neg hlen] at h
    cases hpp : parsePairs (splitOnChar ',' header) none [] with
    | error e => rw [hpp] at h; simp at h
    | ok r =>
      rw [hpp] at h
      obtain ⟨t, sigs⟩ := r
      dsimp only at h
      by_cases hg : sigs.length = 0 ∨ t = none
      · rw [if_pos hg] at h
        simp at h
      · rw [if_neg hg] at h
        push_neg at hg
        cases t with
        | none => exact absurd rfl hg.2
        | some ts =>
          simp only at h
          injection h with h
          subst h
          constructor
          · rfl
          · intro hnil
            apply hg.1
            have hs : sigs = [] := hnil
            rw [hs]
            rfl

/-- C4: header parser postcondition — on success, the timestamp is the
parsed integer value of the last `t` pair (a later `t=` overwrites an
earlier one), the signatures are exactly the `v1` values in header order
with duplicates kept and other keys ignored, and the signature sequence
is non-empty; and when the pair loop completes with no `v1` collected or
`t` never set, the parser fails with `InvalidHeader: missing fields`. -/
theorem parse_header_postcondition :
    (∀ header sh, _parse_header header = .ok sh →
      sh.signatures = v1Values header ∧ sh.signatures ≠ [] ∧
      ∃ v, lastVal (tValues header) = some v ∧ pythonInt v = some sh.timestamp) ∧
    (∀ header t2 sigs2, header.length ≠ 0 →
      parsePairs (splitOnChar ',' header) none [] = .ok (t2, sigs2) →
      sigs2 = [] ∨ t2 = none →
      _parse_header header = .error (.invalidHeader "missing fields")) := by
  constructor
  · intro header sh h
    obtain ⟨hpp, hne⟩ := parse_header_ok_elim header sh h
    obtain ⟨h1, h2, _⟩ := parsePairs_ok_props _ none [] _ _ hpp
    refine ⟨by simpa using h1, hne, ?_⟩
    cases htl : lastVal (tValsOf (splitOnChar ',' header)) with
    | none =>
      rw [htl] at h2
      simp at h2
    | some v =>
      rw [htl] at h2
      exact ⟨v, htl, h2.symm⟩
  · intro header t2 sigs2 hlen hpp hbad
    unfold _parse_header
    rw [if_neg hlen, hpp]
    dsimp only
    rw [if_pos]
    rcases hbad with hbad | hbad
    · exact Or.inl (by rw [hbad]; rfl)
    · exact Or.inr hbad

/-- C4 witness: the postcondition instantiated at the documented header
`t=1,v1=haps`, and the missing-fields failure at the header `t=123123`
which parses its single pair but collects no signature. -/
theorem parse_header_postcondition_witness :
    ((⟨1, ["haps"]⟩ : SignedHeader).signatures = v1Values "t=1,v1=haps" ∧
     (⟨1, ["haps"]⟩ : SignedHeader).signatures ≠ [] ∧
     ∃ v, lastVal (tValues "t=1,v1=haps") = some v ∧
       pythonInt v = some (⟨1, ["haps"]⟩ : SignedHeader).timestamp) ∧
    _parse_header "t=123123" = .error (.invalidHeader "missing fields") :=
  ⟨parse_header_postcondition.1 "t=1,v1=haps" ⟨1, ["haps"]⟩ rfl,
   parse_header_postcondition.2 "t=123123" (some 123123) [] (by decide) rfl (Or.inl rfl)⟩

/-- C5 (amended): every element of a successfully parsed header splits
on `=` into exactly two parts — the parser splits on every `=`, not on
the first one, so an element whose value itself contains `=` (such as
`v1=abc=def`) is rejected with `InvalidHeader: invalid format` rather
than accepted. -/
theorem parse_header_elements_split_in_two :
    ∀ header sh, _parse_header header = .ok sh →
      ∀ pair ∈ splitOnChar ',' header, (splitOnChar '=' pair).length = 2 := by
  intro header sh h
  obtain ⟨hpp, _⟩ := parse_header_ok_elim header sh h
  exact (parsePairs_ok_props _ none [] _ _ hpp).2.2

/-- C5 witness: the amended statement at the header `t=1,v1=x`. -/
theorem parse_header_elements_split_in_two_witness :
    (splitOnChar '=' "t=1").length = 2 ∧ (splitOnChar '=' "v1=x").length = 2 :=
  ⟨parse_header_elements_split_in_two "t=1,v1=x" ⟨1, ["x"]⟩ rfl "t=1" (by decide),
   parse_header_elements_split_in_two "t=1,v1=x" ⟨1, ["x"]⟩ rfl "v1=x" (by decide)⟩

/-! ### Notification builder lemmas -/

/-- The per-event requirements of the claimed payload contract: `at` is
present and parses as an RFC 3339 timestamp, `name` is present, and
`data` is present and decodes as base64. -/
def eventFieldsOk (e : JsonValue) : Bool :=
  (match getItem e "at" with
   | some a => (parse_datetime a).isSome
   | none => false) &&
  (getItem e "name").isSome &&
  (match getItem e "data" with
   | some d => (b64decodeValue d).isSome
   | none => false)

/-- The claim's enumeration of defective payloads, literally: not valid
JSON, or missing `trigger_name`/`entity_id`/`events`, or some event with
a missing `at`/`name`/`data` field, malformed base64 in `data`, or a
malformed timestamp in `at`.  (A non-iterable `events` value yields no
events here, so it is not defective by this enumeration.) -/
def payloadDefective (p : String) : Bool :=
  match jsonParse p with
  | none => true
  | some j =>
    (getItem j "trigger_name").isNone || (getItem j "entity_id").isNone ||
    (match getItem j "events" with
     | none => true
     | some ev => ((pyIter ev).getD []).any (fun e => ! eventFieldsOk e))

/-- The amended defectiveness predicate: as `payloadDefective`, but an
`events` value that is not iterable (not an array, object or string) is
also defective. -/
def payloadDefectiveAmended (p : String) : Bool :=
  match jsonParse p with
  | none => true
  | some j =>
    (getItem j "trigger_name").isNone || (getItem j "entity_id").isNone ||
    (match getItem j "events" with
     | none => true
     | some ev =>
       match pyIter ev with
       | none => true
       | some items => items.any (fun e => ! eventFieldsOk e))

theorem buildEvent_isSome (e : JsonValue) : (buildEvent e).isSome = eventFieldsOk e := by
  unfold buildEvent eventFieldsOk
  cases h1 : getItem e "at" with
  | none => simp
  | some a =>
    cases h2 : parse_datetime a with
    | none => simp [h2]
    | some t =>
      cases h3 : getItem e "name" with
      | none => simp [h2, h3]
      | some nm =>
        cases h4 : getItem e "data" with
        | none => simp [h2, h3]
        | some d =>
          cases h5 : b64decodeValue d with
          | none => simp [h2, h3, h5]
          | some bytes => simp [h2, h3, h5]

theorem buildEvent_none_iff (e : JsonValue) : buildEvent e = none ↔ eventFieldsOk e = false := by
  rw [← buildEvent_isSome]
  cases buildEvent e <;> simp

theorem buildEvents_none_iff : ∀ items : List JsonValue,
    buildEvents items = none ↔ items.any (fun e => ! eventFieldsOk e) = true
  | [] => by simp [buildEvents]
  | e :: rest => by
    rw [List.any_cons]
    cases hbe : buildEvent e with
    | none =>
      have hf := (buildEvent_none_iff e).mp hbe
      simp [buildEvents, hbe, hf]
    | some ev =>
      have hne : eventFieldsOk e = true := by
        cases hfe : eventFieldsOk e
        · rw [(buildEvent_none_iff e).mpr hfe] at hbe
          exact Option.noConfusion hbe
        · rfl
      cases hrest : buildEvents rest with
      | none =>
        have hany := (buildEvents_none_iff rest).mp hrest
        simp [buildEvents, hbe, hrest, hne, hany]
      | some evs =>
        have hany : rest.any (fun e => ! eventFieldsOk e) = false := by
          cases ha : rest.any (fun e => ! eventFieldsOk e)
          · rfl
          · rw [(buildEvents_none_iff rest).mpr ha] at hrest
            exact Option.noConfusion hrest
        simp [buildEvents, hbe, hrest, hne, hany]

theorem buildEvents_cons_elim (e : JsonValue) (rest : List JsonValue) (evs : List Event)
    (h : buildEvents (e :: rest) = some evs) :
    ∃ ev evs2, buildEvent e = some ev ∧ buildEvents rest = some evs2 ∧ evs = ev :: evs2 := by
  simp only [buildEvents, Option.bind_eq_some, Option.map_eq_some'] at h
  obtain ⟨ev, hev, evs2, hevs2, heq⟩ := h
  exact ⟨ev, evs2, hev, hevs2, heq.symm⟩

theorem buildEvents_length : ∀ (items : List JsonValue) (evs : List Event),
    buildEvents items = some evs → evs.length = items.length
  | [], evs => by
    intro h
    simp [buildEvents] at h
    rw [h]
    rfl
  | e :: rest, evs => by
    intro h
    obtain ⟨ev, evs2, _, hevs2, heq⟩ := buildEvents_cons_elim e rest evs h
    subst heq
    simp [buildEvents_length rest evs2 hevs2]

theorem buildEvents_get : ∀ (items : List JsonValue) (evs : List Event),
    buildEvents items = some evs →
    ∀ (i : Nat) (h1 : i < items.length) (h2 : i < evs.length),
      buildEvent (items.get ⟨i, h1⟩) = some (evs.get ⟨i, h2⟩)
  | [], evs => by
    intro h i h1 h2
    simp at h1
  | e :: rest, evs => by
    intro h i h1 h2
    obtain ⟨ev, evs2, hev, hevs2, heq⟩ := buildEvents_cons_elim e rest evs h
    subst heq
    cases i with
    | zero => simpa using hev
    | succ k =>
      have hk1 : k < rest.length := by simpa using h1
      have hk2 : k < evs2.length := by simpa using h2
      simpa using buildEvents_get rest evs2 hevs2 k hk1 hk2

theorem buildEvent_some_fields (e : JsonValue) (ev : Event) (h : buildEvent e = some ev) :
    (∃ a, getItem e "at" = some a ∧ parse_datetime a = some ev.at_) ∧
    getItem e "name" = some ev.name ∧
    (∃ d, getItem e "data" = some d ∧ b64decodeValue d = some ev.data) := by
  simp only [buildEvent, Option.bind_eq_some, Option.map_eq_some'] at h
  obtain ⟨a, ha, t, ht, nm, hnm, d, hd, bytes, hbytes, heq⟩ := h
  subst heq
  exact ⟨⟨a, ha, ht⟩, hnm, ⟨d, hd, hbytes⟩⟩

theorem buildNotificationCore_some_elim (p : String) (n : Notification)
    (h : buildNotificationCore p = some n) :
    ∃ j evVal items, jsonParse p = some j ∧ getItem j "events" = some evVal ∧
      pyIter evVal = some items ∧ buildEvents items = some n.events ∧
      getItem j "trigger_name" = some n.trigger_name ∧
      getItem j "entity_id" = some n.entity_id := by
  simp only [buildNotificationCore, Option.bind_eq_some, Option.map_eq_some'] at h
  obtain ⟨j, hj, evVal, hev, items, hit, events, hevs, tn, htn, ei, hei, heq⟩ := h
  subst heq
  exact ⟨j, evVal, items, hj, hev, hit, hevs, htn, hei⟩

/-- C6 (amended): `_build_notification` fails — always with the single
error kind `InvalidPayloadFormat` — exactly on the defective payloads:
not valid JSON, missing `trigger_name`/`entity_id`/`events`, an `events`
value that is not iterable, or an event with a missing `at`/`name`/`data`
field, malformed base64 `data`, or a malformed `at` timestamp. -/
theorem build_notification_error_iff :
    ∀ p, (_build_notification p = .error .invalidPayloadFormat ↔
            payloadDefectiveAmended p = true) ∧
         ((∃ n, _build_notification p = .ok n) ∨
            _build_notification p = .error .invalidPayloadFormat) := by
  intro p
  constructor
  · unfold _build_notification buildNotificationCore payloadDefectiveAmended
    cases hj : jsonParse p with
    | none => simp
    | some j =>
      cases hev : getItem j "events" with
      | none => simp [hev]
      | some evVal =>
        cases hit : pyIter evVal with
        | none => simp [hev, hit]
        | some items =>
          cases hbe : buildEvents items with
          | none =>
            have hany := (buildEvents_none_iff items).mp hbe
            simp [hev, hit, hbe, hany]
          | some evs =>
            have hany : items.any (fun e => ! eventFieldsOk e) = false := by
              cases ha : items.any (fun e => ! eventFieldsOk e)
              · rfl
              · rw [(buildEvents_none_iff items).mpr ha] at hbe
                exact Option.noConfusion hbe
            cases htn : getItem j "trigger_name" with
            | none => simp [hev, hit, hbe, htn]
            | some tn =>
              cases hei : getItem j "entity_id" with
              | none => simp [hev, hit, hbe, htn, hei]
              | some ei => simp [hev, hit, hbe, htn, hei, hany]
  · unfold _build_notification
    cases buildNotificationCore p with
    | none => exact Or.inr rfl
    | some n => exact Or.inl ⟨n, rfl⟩

/-- C6 counterexample: the payload
`{"trigger_name":"a","entity_id":"b","events":0}` is valid JSON, has all
three required fields, and contains no event with malformed base64 or
timestamp data — so it is not defective by the claim's enumeration — yet
`_build_notification` raises `InvalidPayloadFormat` (iterating the
number `0` raises `TypeError` inside the guarded block). -/
theorem build_notification_noniterable_events :
    payloadDefective "\x7b\"trigger_name\":\"a\",\"entity_id\":\"b\",\"events\":0\x7d" = false ∧
    _build_notification "\x7b\"trigger_name\":\"a\",\"entity_id\":\"b\",\"events\":0\x7d" =
      .error .invalidPayloadFormat :=
  ⟨rfl, rfl⟩

/-! ### Orchestrator lemmas -/

theorem verifyLoop_ok_mem (e p : String) : ∀ (sigs : List String) (n : Notification),
    verifyLoop e p sigs = .ok n → ∃ cand ∈ sigs, compare_digest e cand = true
  | [], n => by
    intro h
    simp [verifyLoop] at h
  | got :: rest, n => by
    intro h
    unfold verifyLoop at h
    by_cases hc : compare_digest e got = true
    · exact ⟨got, List.mem_cons_self _ _, hc⟩
    · rw [if_neg hc] at h
      obtain ⟨cand, hm, hcc⟩ := verifyLoop_ok_mem e p rest n h
      exact ⟨cand, List.mem_cons_of_mem _ hm, hcc⟩

theorem verifyLoop_ok_build (e p : String) : ∀ (sigs : List String) (n : Notification),
    verifyLoop e p sigs = .ok n → _build_notification p = .ok n
  | [], n => by
    intro h
    simp [verifyLoop] at h
  | got :: rest, n => by
    intro h
    unfold verifyLoop at h
    by_cases hc : compare_digest e got = true
    · rw [if_pos hc] at h
      exact h
    · rw [if_neg hc] at h
      exact verifyLoop_ok_build e p rest n h

theorem verifyLoop_all_fail (e p : String) : ∀ sigs : List String,
    (∀ cand ∈ sigs, compare_digest e cand = false) →
    verifyLoop e p sigs = .error .invalidSignature
  | [] => fun _ => rfl
  | got :: rest => by
    intro hall
    unfold verifyLoop
    rw [if_neg (by simp [hall got (List.mem_cons_self _ _)])]
    exact verifyLoop_all_fail e p rest (fun cand hm => hall cand (List.mem_cons_of_mem _ hm))

theorem build_ne_expired (p : String) : _build_notification p ≠ .error .signatureExpired := by
  unfold _build_notification
  cases buildNotificationCore p <;> simp

theorem verifyLoop_ne_expired (e p : String) : ∀ sigs : List String,
    verifyLoop e p sigs ≠ .error .signatureExpired
  | [] => by simp [verifyLoop]
  | got :: rest => by
    unfold verifyLoop
    by_cases hc : compare_digest e got = true
    · rw [if_pos hc]
      exact build_ne_expired p
    · rw [if_neg hc]
      exact verifyLoop_ne_expired e p rest

theorem construct_ok_elim (tol : Nat) (now : Int) (payload header secret : String)
    (n : Notification)
    (h : construct_notificationWith tol now payload header secret = .ok n) :
    ∃ sh, _parse_header header = .ok sh ∧
      ¬(tol ≠ 0 ∧ sh.timestamp < now - (tol : Int)) ∧
      verifyLoop (_compute_signature secret sh.timestamp payload) payload sh.signatures =
        .ok n := by
  unfold construct_notificationWith at h
  cases hp : _parse_header header with
  | error e =>
    rw [hp] at h
    exact Except.noConfusion h
  | ok sh =>
    rw [hp] at h
    dsimp only at h
    by_cases hg : tol ≠ 0 ∧ sh.timestamp < now - (tol : Int)
    · rw [if_pos hg] at h
      exact Except.noConfusion h
    · rw [if_neg hg] at h
      exact ⟨sh, rfl, hg, h⟩

/-- C1: `construct_notification` never exposes a `Notification` without
verification — a successful call implies the header parsed, the
tolerance gate passed, and the recomputed expected signature occurs
among the header's candidates; and when no candidate equals the expected
signature (with parsing and the tolerance gate passing), the call fails
with `InvalidSignature`. -/
theorem construct_notification_requires_match :
    (∀ (tol : Nat) (now : Int) (payload header secret : String) (n : Notification),
      construct_notificationWith tol now payload header secret = .ok n →
      ∃ sh, _parse_header header = .ok sh ∧
        ¬(tol ≠ 0 ∧ sh.timestamp < now - (tol : Int)) ∧
        _compute_signature secret sh.timestamp payload ∈ sh.signatures) ∧
    (∀ (tol : Nat) (now : Int) (payload header secret : String) (sh : SignedHeader),
      _parse_header header = .ok sh →
      ¬(tol ≠ 0 ∧ sh.timestamp < now - (tol : Int)) →
      (∀ cand ∈ sh.signatures, cand ≠ _compute_signature secret sh.timestamp payload) →
      construct_notificationWith tol now payload header secret = .error .invalidSignature) := by
  constructor
  · intro tol now payload header secret n h
    obtain ⟨sh, hp, hg, hv⟩ := construct_ok_elim tol now payload header secret n h
    obtain ⟨cand, hm, hcc⟩ :=
      verifyLoop_ok_mem (_compute_signature secret sh.timestamp payload) payload
        sh.signatures n hv
    have he := (compare_digest_true_iff _ _).mp hcc
    exact ⟨sh, hp, hg, he ▸ hm⟩
  · intro tol now payload header secret sh hp hg hne
    unfold construct_notificationWith
    rw [hp]
    dsimp only
    rw [if_neg hg]
    apply verifyLoop_all_fail
    intro cand hm
    cases hc : compare_digest (_compute_signature secret sh.timestamp payload) cand
    · rfl
    · exact absurd ((compare_digest_true_iff _ _).mp hc).symm (hne cand hm)

/-- C1 witness: part one applied to a verified empty-events delivery
(the hypothesis is discharged by evaluation), and part two applied to a
header whose single candidate `xyz` differs from the expected digest. -/
theorem construct_notification_requires_match_witness :
    (∃ sh,
      _parse_header
          "t=1602251283,v1=bc1f2a1b13912e4ac7318da27c3d7038f087cdda8aab680e1542100dbb20732c" =
        .ok sh ∧
      ¬((300 : Nat) ≠ 0 ∧ sh.timestamp < 1602251283 - ((300 : Nat) : Int)) ∧
      _compute_signature "s" sh.timestamp
          "\x7b\"trigger_name\":\"a\",\"entity_id\":\"b\",\"events\":[]\x7d" ∈
        sh.signatures) ∧
    construct_notificationWith 300 0 "p" "t=5,v1=xyz" "s" = .error .invalidSignature :=
  ⟨construct_notification_requires_match.1 300 1602251283
      "\x7b\"trigger_name\":\"a\",\"entity_id\":\"b\",\"events\":[]\x7d"
      "t=1602251283,v1=bc1f2a1b13912e4ac7318da27c3d7038f087cdda8aab680e1542100dbb20732c"
      "s" ⟨.str "a", .str "b", []⟩ rfl,
   construct_notification_requires_match.2 300 0 "p" "t=5,v1=xyz" "s" ⟨5, ["xyz"]⟩ rfl
      (by decide) (by decide)⟩

/-- C3: with the header parsed, `construct_notification` fails with
`SignatureExpired` exactly when the tolerance window is configured
(non-zero) and the header timestamp is strictly below `now` minus the
tolerance; any timestamp at or above that bound — including timestamps
arbitrarily far in the future — passes the gate. -/
theorem construct_notification_expired_iff :
    ∀ (tol : Nat) (now : Int) (payload header secret : String) (sh : SignedHeader),
      _parse_header header = .ok sh →
      (construct_notificationWith tol now payload header secret = .error .signatureExpired ↔
        (tol ≠ 0 ∧ sh.timestamp < now - (tol : Int))) := by
  intro tol now payload header secret sh hp
  unfold construct_notificationWith
  rw [hp]
  dsimp only
  by_cases hg : tol ≠ 0 ∧ sh.timestamp < now - (tol : Int)
  · rw [if_pos hg]
    exact ⟨fun _ => hg, fun _ => rfl⟩
  · rw [if_neg hg]
    constructor
    · intro h
      exact absurd h (verifyLoop_ne_expired _ _ _)
    · intro h
      exact absurd h hg

/-- C3 witness: the expiry iff instantiated at the header `t=1,v1=x`
with the default tolerance and a late clock. -/
theorem construct_notification_expired_iff_witness :
    construct_notificationWith 300 1000000 "p" "t=1,v1=x" "s" = .error .signatureExpired ↔
      ((300 : Nat) ≠ 0 ∧
        (⟨1, ["x"]⟩ : SignedHeader).timestamp < 1000000 - ((300 : Nat) : Int)) :=
  construct_notification_expired_iff 300 1000000 "p" "t=1,v1=x" "s" ⟨1, ["x"]⟩ rfl

theorem construct_ok_core (tol : Nat) (now : Int) (payload header secret : String)
    (n : Notification)
    (h : construct_notificationWith tol now payload header secret = .ok n) :
    buildNotificationCore payload = some n := by
  obtain ⟨sh, _, _, hv⟩ := construct_ok_elim tol now payload header secret n h
  have hb := verifyLoop_ok_build _ payload sh.signatures n hv
  unfold _build_notification at hb
  cases hc : buildNotificationCore payload with
  | none =>
    rw [hc] at hb
    exact Except.noConfusion hb
  | some m =>
    rw [hc] at hb
    injection hb with hb
    rw [hb]

/-- C7: every `Notification` returned by `construct_notification` has
`trigger_name` and `entity_id` equal to the payload's fields, and its
events match the payload's events array in length and order, with each
event's `at` the parsed RFC 3339 instant of the source `at` string, its
`name` the source `name` value, and its `data` the base64-decoded bytes
of the source `data` string. -/
theorem construct_notification_field_correspondence :
    ∀ (tol : Nat) (now : Int) (payload header secret : String) (n : Notification),
      construct_notificationWith tol now payload header secret = .ok n →
      ∃ j evVal items, jsonParse payload = some j ∧
        getItem j "events" = some evVal ∧ pyIter evVal = some items ∧
        getItem j "trigger_name" = some n.trigger_name ∧
        getItem j "entity_id" = some n.entity_id ∧
        n.events.length = items.length ∧
        ∀ (i : Nat) (h1 : i < items.length) (h2 : i < n.events.length),
          (∃ a, getItem (items.get ⟨i, h1⟩) "at" = some a ∧
            parse_datetime a = some ((n.events.get ⟨i, h2⟩).at_)) ∧
          getItem (items.get ⟨i, h1⟩) "name" = some ((n.events.get ⟨i, h2⟩).name) ∧
          (∃ d, getItem (items.get ⟨i, h1⟩) "data" = some d ∧
            b64decodeValue d = some ((n.events.get ⟨i, h2⟩).data)) := by
  intro tol now payload header secret n h
  have hc := construct_ok_core tol now payload header secret n h
  obtain ⟨j, evVal, items, hj, hev, hit, hevs, htn, hei⟩ :=
    buildNotificationCore_some_elim payload n hc
  refine ⟨j, evVal, items, hj, hev, hit, htn, hei, buildEvents_length items n.events hevs, ?_⟩
  intro i h1 h2
  exact buildEvent_some_fields _ _ (buildEvents_get items n.events hevs i h1 h2)

/-- C7 witness: the field correspondence at a verified two-event
delivery; the hypothesis is discharged by evaluating the whole pipeline
on the concrete payload, header and secret. -/
theorem construct_notification_field_correspondence_witness :
    ∃ j evVal items,
      jsonParse "\x7b\"trigger_name\":\"tn\",\"entity_id\":\"eid\",\"events\":[\x7b\"at\":\"2020-10-09T13:47:17.321618Z\",\"name\":\"n1\",\"data\":\"aGk=\"\x7d,\x7b\"at\":\"2019-02-25T09:41:12Z\",\"name\":\"n2\",\"data\":\"QUJD\"\x7d]\x7d" = some j ∧
      getItem j "events" = some evVal ∧ pyIter evVal = some items ∧
      getItem j "trigger_name" =
        some (Notification.trigger_name ⟨.str "tn", .str "eid",
          [⟨⟨1602251237, [3, 2, 1, 6, 1, 8]⟩, .str "n1", [104, 105]⟩,
           ⟨⟨1551087672, []⟩, .str "n2", [65, 66, 67]⟩]⟩) ∧
      getItem j "entity_id" =
        some (Notification.entity_id ⟨.str "tn", .str "eid",
          [⟨⟨1602251237, [3, 2, 1, 6, 1, 8]⟩, .str "n1", [104, 105]⟩,
           ⟨⟨1551087672, []⟩, .str "n2", [65, 66, 67]⟩]⟩) ∧
      (Notification.events ⟨.str "tn", .str "eid",
          [⟨⟨1602251237, [3, 2, 1, 6, 1, 8]⟩, .str "n1", [104, 105]⟩,
           ⟨⟨1551087672, []⟩, .str "n2", [65, 66, 67]⟩]⟩).length = items.length ∧
      ∀ (i : Nat) (h1 : i < items.length)
        (h2 : i < (Notification.events ⟨.str "tn", .str "eid",
          [⟨⟨1602251237, [3, 2, 1, 6, 1, 8]⟩, .str "n1", [104, 105]⟩,
           ⟨⟨1551087672, []⟩, .str "n2", [65, 66, 67]⟩]⟩).length),
          (∃ a, getItem (items.get ⟨i, h1⟩) "at" = some a ∧
            parse_datetime a = some (((Notification.events ⟨.str "tn", .str "eid",
              [⟨⟨1602251237, [3, 2, 1, 6, 1, 8]⟩, .str "n1", [104, 105]⟩,
               ⟨⟨1551087672, []⟩, .str "n2", [65, 66, 67]⟩]⟩).get ⟨i, h2⟩).at_)) ∧
          getItem (items.get ⟨i, h1⟩) "name" =
            some (((Notification.events ⟨.str "tn", .str "eid",
              [⟨⟨1602251237, [3, 2, 1, 6, 1, 8]⟩, .str "n1", [104, 105]⟩,
               ⟨⟨1551087672, []⟩, .str "n2", [65, 66, 67]⟩]⟩).get ⟨i, h2⟩).name) ∧
          (∃ d, getItem (items.get ⟨i, h1⟩) "data" = some d ∧
            b64decodeValue d = some (((Notification.events ⟨.str "tn", .str "eid",
              [⟨⟨1602251237, [3, 2, 1, 6, 1, 8]⟩, .str "n1", [104, 105]⟩,
               ⟨⟨1551087672, []⟩, .str "n2", [65, 66, 67]⟩]⟩).get ⟨i, h2⟩).data)) :=
  construct_notification_field_correspondence 300 1602251283
    "\x7b\"trigger_name\":\"tn\",\"entity_id\":\"eid\",\"events\":[\x7b\"at\":\"2020-10-09T13:47:17.321618Z\",\"name\":\"n1\",\"data\":\"aGk=\"\x7d,\x7b\"at\":\"2019-02-25T09:41:12Z\",\"name\":\"n2\",\"data\":\"QUJD\"\x7d]\x7d"
    "t=1602251283,v1=2bddf44504d48147d61c08e17ac77068561e50702c67ed24404a360292305002"
    "top secret"
    ⟨.str "tn", .str "eid",
      [⟨⟨1602251237, [3, 2, 1, 6, 1, 8]⟩, .str "n1", [104, 105]⟩,
       ⟨⟨1551087672, []⟩, .str "n2", [65, 66, 67]⟩]⟩
    rfl

/-- C9 counterexample: a signature-verified payload whose `events` array
is empty — the system returns a `Notification` with an empty events
sequence, so produced Notifications do not always contain one or more
events. -/
theorem construct_notification_empty_events :
    construct_notificationWith 300 1602251283
        "\x7b\"trigger_name\":\"a\",\"entity_id\":\"b\",\"events\":[]\x7d"
        "t=1602251283,v1=bc1f2a1b13912e4ac7318da27c3d7038f087cdda8aab680e1542100dbb20732c"
        "s" =
      .ok ⟨.str "a", .str "b", []⟩ := rfl

/-- C9 (amended): the events sequence of a returned `Notification` has
exactly as many events as the verified payload's events sequence — it is
empty exactly when the payload's events sequence is empty, so zero-event
Notifications are possible. -/
theorem construct_notification_events_length :
    ∀ (tol : Nat) (now : Int) (payload header secret : String) (n : Notification),
      construct_notificationWith tol now payload header secret = .ok n →
      ∃ j evVal items, jsonParse payload = some j ∧
        getItem j "events" = some evVal ∧ pyIter evVal = some items ∧
        n.events.length = items.length ∧ (n.events = [] ↔ items = []) := by
  intro tol now payload header secret n h
  have hc := construct_ok_core tol now payload header secret n h
  obtain ⟨j, evVal, items, hj, hev, hit, hevs, _, _⟩ :=
    buildNotificationCore_some_elim payload n hc
  have hlen := buildEvents_length items n.events hevs
  refine ⟨j, evVal, items, hj, hev, hit, hlen, ?_⟩
  constructor
  · intro he
    have : items.length = 0 := by rw [← hlen, he]; rfl
    exact List.eq_nil_of_length_eq_zero this
  · intro hi
    have : n.events.length = 0 := by rw [hlen, hi]; rfl
    exact List.eq_nil_of_length_eq_zero this

/-- C9 witness: the amended statement at the verified empty-events
delivery. -/
theorem construct_notification_events_length_witness :
    ∃ j evVal items,
      jsonParse "\x7b\"trigger_name\":\"a\",\"entity_id\":\"b\",\"events\":[]\x7d" = some j ∧
      getItem j "events" = some evVal ∧ pyIter evVal = some items ∧
      (Notification.events ⟨.str "a", .str "b", []⟩).length = items.length ∧
      (Notification.events ⟨.str "a", .str "b", []⟩ = [] ↔ items = []) :=
  construct_notification_events_length 300 1602251283
    "\x7b\"trigger_name\":\"a\",\"entity_id\":\"b\",\"events\":[]\x7d"
    "t=1602251283,v1=bc1f2a1b13912e4ac7318da27c3d7038f087cdda8aab680e1542100dbb20732c"
    "s" ⟨.str "a", .str "b", []⟩ rfl
